import Mathlib

/-!
Verification development for the KubeAgentic operator.

The definitions below are a shallow embedding of the Go sources of the
repository: the Agent custom-resource data model (api/v1 types), the
admission webhook (defaulting and validation), the two reconcilers (the
"simple" one and the "enhanced" one), the object builders (Deployment,
Service, ConfigMap, HPA, Ingress) and the status engine.  Kubernetes
cluster state is modelled explicitly as lists of owned objects; each
reconciliation pass is a pure function from (time, cluster, agent) to
(cluster, agent, outcome).  int32 quantities are modelled as Int; all
values reachable through validation stay far from the int32 boundaries.
-/

/-- Mirror of corev1.SecretKeySelector: the fields the operator reads. -/
structure SecretKeySelector where
  name : String
  key : String
deriving DecidableEq

/-- Mirror of corev1.ResourceRequirements restricted to the four quantities
the operator ever sets (requests/limits for cpu and memory), kept as the
literal quantity strings passed to resource.MustParse. -/
structure ResourceRequirements where
  requestsMemory : String
  requestsCPU : String
  limitsMemory : String
  limitsCPU : String
deriving DecidableEq

/-- Tool record from the Agent spec; the operator treats it as an opaque
payload, so only the identifying fields are carried. -/
structure Tool where
  name : String
  description : String
deriving DecidableEq

/-- LanggraphConfig from the Agent spec; the operator only presence-checks
and serializes it, so a projection to its entry fields suffices. -/
structure LanggraphConfig where
  graphType : String
  entrypoint : String
deriving DecidableEq

/-- AgentSpec from api/v1: the user-intent section of the Agent resource. -/
structure AgentSpec where
  provider : String
  model : String
  systemPrompt : String
  apiSecretRef : SecretKeySelector
  endpoint : String
  framework : String
  langgraphConfig : Option LanggraphConfig
  tools : List Tool
  replicas : Option Int
  resources : Option ResourceRequirements
  serviceType : String
deriving DecidableEq

/-- AgentCondition from api/v1. Status is the ConditionStatus string
(True / False / Unknown); LastTransitionTime is modelled as an optional
abstract instant. -/
structure AgentCondition where
  condType : String
  status : String
  reason : String
  message : String
  lastTransitionTime : Option Nat
deriving DecidableEq

/-- ReplicaStatus from api/v1. -/
structure ReplicaStatus where
  ready : Int
  desired : Int
  available : Int
deriving DecidableEq

/-- AgentStatus from api/v1. Phase is the AgentPhase string. -/
structure AgentStatus where
  phase : String
  message : String
  replicaStatus : ReplicaStatus
  lastUpdated : Option Nat
  conditions : List AgentCondition
deriving DecidableEq

/-- Agent resource: object metadata (name, namespace, deletion timestamp,
finalizers) plus spec and status. -/
structure Agent where
  name : String
  ns : String
  deletionTimestamp : Option Nat
  finalizers : List String
  spec : AgentSpec
  status : AgentStatus
deriving DecidableEq

/-- AgentPhasePending constant from api/v1. -/
def AgentPhasePending : String := "Pending"

/-- AgentPhaseRunning constant from api/v1. -/
def AgentPhaseRunning : String := "Running"

/-- AgentPhaseFailed constant from api/v1. -/
def AgentPhaseFailed : String := "Failed"

/-- AgentConditionReady constant from api/v1. -/
def AgentConditionReady : String := "Ready"

/-- AgentConditionDegraded constant from api/v1. -/
def AgentConditionDegraded : String := "Degraded"

/-- ConditionTrue constant from corev1. -/
def ConditionTrue : String := "True"

/-- ConditionFalse constant from corev1. -/
def ConditionFalse : String := "False"

/-- The finalizer string used by both reconcilers. -/
def kubeagenticFinalizer : String := "kubeagentic.ai/finalizer"

/-- Default resource record installed by the webhook defaulter
(requests 256Mi / 100m, limits 512Mi / 200m). -/
def defaultResources : ResourceRequirements :=
  { requestsMemory := "256Mi", requestsCPU := "100m"
    limitsMemory := "512Mi", limitsCPU := "200m" }

/-- Agent.Default from the admission webhook: fills framework, replicas,
serviceType and resources only when they are unset. -/
def Agent.Default (r : Agent) : Agent :=
  let s0 := r.spec
  let s1 := if s0.framework == "" then { s0 with framework := "direct" } else s0
  let s2 := if s1.replicas == none then { s1 with replicas := some 1 } else s1
  let s3 := if s2.serviceType == "" then { s2 with serviceType := "ClusterIP" } else s2
  let s4 := if s3.resources == none then { s3 with resources := some defaultResources } else s3
  { r with spec := s4 }

/-- The provider list accepted by both the webhook validator and the
reconciler validator. -/
def validProviders : List String := ["openai", "gemini", "claude", "vllm"]

/-- The service-type list accepted by the webhook validator. -/
def validServiceTypes : List String := ["ClusterIP", "NodePort", "LoadBalancer"]

/-- Agent.validateAgent from the admission webhook, as the ordered list of
field errors it accumulates; the webhook admits exactly when this list is
empty. -/
def validateAgentErrs (r : Agent) : List String :=
  (if validProviders.any (fun p => r.spec.provider == p) then []
   else ["spec.provider: must be one of openai gemini claude vllm"])
  ++ (if r.spec.model == "" then ["spec.model: model is required"] else [])
  ++ (if r.spec.systemPrompt == "" then ["spec.systemPrompt: systemPrompt is required"] else [])
  ++ (if r.spec.apiSecretRef.name == "" then ["spec.apiSecretRef.name: apiSecretRef.name is required"] else [])
  ++ (if r.spec.apiSecretRef.key == "" then ["spec.apiSecretRef.key: apiSecretRef.key is required"] else [])
  ++ (if r.spec.framework != "" && r.spec.framework != "direct" && r.spec.framework != "langgraph"
      then ["spec.framework: must be direct or langgraph"] else [])
  ++ (if r.spec.framework == "langgraph" && r.spec.langgraphConfig == none
      then ["spec.langgraphConfig: langgraphConfig is required when framework is langgraph"] else [])
  ++ (match r.spec.replicas with
      | some n => if n < 1 || n > 10 then ["spec.replicas: must be between 1 and 10"] else []
      | none => [])
  ++ (if r.spec.serviceType != "" && !(validServiceTypes.any (fun t => r.spec.serviceType == t))
      then ["spec.serviceType: must be one of ClusterIP NodePort LoadBalancer"] else [])

/-- Agent.validateAgent as the webhook returns it: none admits the object,
some carries the aggregated validation error. -/
def validateAgent (r : Agent) : Option String :=
  if validateAgentErrs r == [] then none
  else some ("validation failed")

/-- AgentReconciler.validateConfiguration from the enhanced reconciler:
first-failure validation of provider, framework, langgraph config and
replicas. -/
def validateConfiguration (agent : Agent) : Except String Unit :=
  if !(validProviders.any (fun p => agent.spec.provider == p)) then
    Except.error ("invalid provider: " ++ agent.spec.provider ++ ", must be one of openai gemini claude vllm")
  else if agent.spec.framework != "" && agent.spec.framework != "direct" && agent.spec.framework != "langgraph" then
    Except.error ("invalid framework: " ++ agent.spec.framework ++ ", must be direct or langgraph")
  else if agent.spec.framework == "langgraph" && agent.spec.langgraphConfig == none then
    Except.error ("langgraphConfig is required when framework is langgraph")
  else
    match agent.spec.replicas with
    | some n =>
        if n < 1 || n > 10 then
          Except.error ("replicas must be between 1 and 10, got " ++ toString n)
        else Except.ok ()
    | none => Except.ok ()

/-- Deployment child object, projected to the fields the operator reads or
writes: identity, the declared replica count, and the observed counts. -/
structure Deployment where
  name : String
  ns : String
  specReplicas : Int
  readyReplicas : Int
  availableReplicas : Int
  statusReplicas : Int
deriving DecidableEq

/-- Service child object, projected to identity, type and ports. -/
structure K8sService where
  name : String
  ns : String
  svcType : String
  port : Int
  targetPort : Int
deriving DecidableEq

/-- ConfigMap child object, projected to identity and the set of data keys
the builder populates. -/
structure ConfigMap where
  name : String
  ns : String
  dataKeys : List String
deriving DecidableEq

/-- One autoscaling metric of the HPA spec (resource name plus target
average utilization). -/
structure MetricSpec where
  resourceName : String
  averageUtilization : Int
deriving DecidableEq

/-- HorizontalPodAutoscaler child object, projected to the fields buildHPA
populates. -/
structure HPA where
  name : String
  ns : String
  scaleTargetAPIVersion : String
  scaleTargetKind : String
  scaleTargetName : String
  minReplicas : Int
  maxReplicas : Int
  metrics : List MetricSpec
deriving DecidableEq

/-- Ingress child object, projected to identity, host and backend. -/
structure Ingress where
  name : String
  ns : String
  host : String
  backendServiceName : String
  backendServicePort : Int
deriving DecidableEq

/-- Secret object: identity plus the set of data keys present. -/
structure Secret where
  name : String
  ns : String
  dataKeys : List String
deriving DecidableEq

/-- Cluster state visible to the operator: the collections of objects it
reads and writes through the API server. -/
structure Cluster where
  secrets : List Secret
  deployments : List Deployment
  services : List K8sService
  configMaps : List ConfigMap
  hpas : List HPA
  ingresses : List Ingress
deriving DecidableEq

/-- Lookup of a Deployment by namespaced name (client.Get). -/
def findDeployment (c : Cluster) (name ns : String) : Option Deployment :=
  c.deployments.find? (fun d => d.name == name && d.ns == ns)

/-- Lookup of a Service by namespaced name (client.Get). -/
def findService (c : Cluster) (name ns : String) : Option K8sService :=
  c.services.find? (fun s => s.name == name && s.ns == ns)

/-- Lookup of a ConfigMap by namespaced name (client.Get). -/
def findConfigMap (c : Cluster) (name ns : String) : Option ConfigMap :=
  c.configMaps.find? (fun m => m.name == name && m.ns == ns)

/-- Lookup of an HPA by namespaced name (client.Get). -/
def findHPA (c : Cluster) (name ns : String) : Option HPA :=
  c.hpas.find? (fun h => h.name == name && h.ns == ns)

/-- Lookup of an Ingress by namespaced name (client.Get). -/
def findIngress (c : Cluster) (name ns : String) : Option Ingress :=
  c.ingresses.find? (fun i => i.name == name && i.ns == ns)

/-- Lookup of a Secret by namespaced name (client.Get). -/
def findSecret (c : Cluster) (name ns : String) : Option Secret :=
  c.secrets.find? (fun s => s.name == name && s.ns == ns)

/-- AgentReconciler.validateSecretRef: the referenced secret must exist in
the Agent namespace and contain the referenced key. -/
def validateSecretRef (c : Cluster) (agent : Agent) : Except String Unit :=
  match findSecret c agent.spec.apiSecretRef.name agent.ns with
  | none => Except.error ("failed to get secret " ++ agent.spec.apiSecretRef.name)
  | some secret =>
      if secret.dataKeys.contains agent.spec.apiSecretRef.key then Except.ok ()
      else Except.error ("key " ++ agent.spec.apiSecretRef.key ++ " not found in secret " ++ agent.spec.apiSecretRef.name)

/-- AgentReconciler.buildDeployment (enhanced reconciler): replicas default
to 1 when unset; a freshly built Deployment reports no observed replicas. -/
def buildDeployment (agent : Agent) : Deployment :=
  let replicas : Int := match agent.spec.replicas with
    | some n => n
    | none => 1
  { name := agent.name, ns := agent.ns
    specReplicas := replicas
    readyReplicas := 0, availableReplicas := 0, statusReplicas := 0 }

/-- AgentReconciler.buildService: port 80 targeting container port 8080,
type from the spec with ClusterIP default. -/
def buildService (agent : Agent) : K8sService :=
  let serviceType := if agent.spec.serviceType != "" then agent.spec.serviceType else "ClusterIP"
  { name := agent.name ++ "-service", ns := agent.ns
    svcType := serviceType, port := 80, targetPort := 8080 }

/-- AgentReconciler.buildConfigMap: data keys tools.json and
langgraph-config.json are present exactly when the corresponding spec
section is non-empty. -/
def buildConfigMap (agent : Agent) : ConfigMap :=
  let keys := (if agent.spec.tools.length > 0 then ["tools.json"] else [])
    ++ (match agent.spec.langgraphConfig with
        | some _ => ["langgraph-config.json"]
        | none => [])
  { name := agent.name ++ "-config", ns := agent.ns, dataKeys := keys }

/-- AgentReconciler.buildHPA: min replicas default 1 and max 10 when the
spec leaves replicas unset, otherwise min = replicas and max = 3 times
replicas; target is the Deployment named after the Agent; metrics are CPU
utilization 70 and memory utilization 80. -/
def buildHPA (agent : Agent) : HPA :=
  let minReplicas : Int := match agent.spec.replicas with
    | some n => n
    | none => 1
  let maxReplicas : Int := match agent.spec.replicas with
    | some n => n * 3
    | none => 10
  { name := agent.name ++ "-hpa", ns := agent.ns
    scaleTargetAPIVersion := "apps/v1", scaleTargetKind := "Deployment", scaleTargetName := agent.name
    minReplicas := minReplicas, maxReplicas := maxReplicas
    metrics := [{ resourceName := "cpu", averageUtilization := 70 },
                { resourceName := "memory", averageUtilization := 80 }] }

/-- AgentReconciler.buildIngress: host agent.namespace.local, backend the
Agent service on port 80. -/
def buildIngress (agent : Agent) : Ingress :=
  { name := agent.name ++ "-ingress", ns := agent.ns
    host := agent.name ++ "." ++ agent.ns ++ ".local"
    backendServiceName := agent.name ++ "-service", backendServicePort := 80 }

/-- AgentReconciler.reconcileConfigMap: create the built ConfigMap when it
is absent, otherwise overwrite the existing data. -/
def reconcileConfigMap (c : Cluster) (agent : Agent) : Cluster :=
  let configMap := buildConfigMap agent
  match findConfigMap c configMap.name configMap.ns with
  | none => { c with configMaps := c.configMaps ++ [configMap] }
  | some _ =>
      { c with configMaps := c.configMaps.map (fun m =>
          if m.name == configMap.name && m.ns == configMap.ns
          then { m with dataKeys := configMap.dataKeys } else m) }

/-- AgentReconciler.reconcileDeployment: create the built Deployment when it
is absent, otherwise overwrite the existing spec (observed status fields are
untouched). -/
def reconcileDeployment (c : Cluster) (agent : Agent) : Cluster :=
  let deployment := buildDeployment agent
  match findDeployment c deployment.name deployment.ns with
  | none => { c with deployments := c.deployments ++ [deployment] }
  | some _ =>
      { c with deployments := c.deployments.map (fun d =>
          if d.name == deployment.name && d.ns == deployment.ns
          then { d with specReplicas := deployment.specReplicas } else d) }

/-- AgentReconciler.reconcileService: create the built Service when it is
absent, otherwise overwrite ports, selector and type. -/
def reconcileService (c : Cluster) (agent : Agent) : Cluster :=
  let service := buildService agent
  match findService c service.name service.ns with
  | none => { c with services := c.services ++ [service] }
  | some _ =>
      { c with services := c.services.map (fun s =>
          if s.name == service.name && s.ns == service.ns
          then { s with svcType := service.svcType, port := service.port, targetPort := service.targetPort }
          else s) }

/-- AgentReconciler.reconcileHPA: when replicas is set to exactly 1, delete
any pre-existing HPA (a missing HPA is success); otherwise create the built
HPA or overwrite the existing spec. -/
def reconcileHPA (c : Cluster) (agent : Agent) : Cluster :=
  if agent.spec.replicas == some 1 then
    match findHPA c (agent.name ++ "-hpa") agent.ns with
    | some _ =>
        { c with hpas := c.hpas.filter (fun h => !(h.name == agent.name ++ "-hpa" && h.ns == agent.ns)) }
    | none => c
  else
    let hpa := buildHPA agent
    match findHPA c hpa.name hpa.ns with
    | none => { c with hpas := c.hpas ++ [hpa] }
    | some _ =>
        { c with hpas := c.hpas.map (fun h =>
            if h.name == hpa.name && h.ns == hpa.ns
            then { hpa with name := h.name, ns := h.ns } else h) }

/-- AgentReconciler.reconcileIngress: when the service type is not
LoadBalancer, delete any pre-existing Ingress (a missing Ingress is
success); otherwise create the built Ingress or overwrite the existing
spec. -/
def reconcileIngress (c : Cluster) (agent : Agent) : Cluster :=
  if agent.spec.serviceType != "LoadBalancer" then
    match findIngress c (agent.name ++ "-ingress") agent.ns with
    | some _ =>
        { c with ingresses := c.ingresses.filter (fun i => !(i.name == agent.name ++ "-ingress" && i.ns == agent.ns)) }
    | none => c
  else
    let ingress := buildIngress agent
    match findIngress c ingress.name ingress.ns with
    | none => { c with ingresses := c.ingresses ++ [ingress] }
    | some _ =>
        { c with ingresses := c.ingresses.map (fun i =>
            if i.name == ingress.name && i.ns == ingress.ns
            then { ingress with name := i.name, ns := i.ns } else i) }

/-- AgentReconciler.updateCondition: replace the first condition of the same
type, keeping its lastTransitionTime when the status value is unchanged;
append when no condition of that type exists. -/
def updateCondition (conditions : List AgentCondition) (newCondition : AgentCondition) : List AgentCondition :=
  match conditions with
  | [] => [newCondition]
  | condition :: rest =>
      if condition.condType == newCondition.condType then
        (if condition.status == newCondition.status then
          { newCondition with lastTransitionTime := condition.lastTransitionTime }
        else newCondition) :: rest
      else condition :: updateCondition rest newCondition

/-- First condition of a given type in a conditions list (the entry
updateCondition would replace). -/
def findCondition (conditions : List AgentCondition) (condType : String) : Option AgentCondition :=
  conditions.find? (fun condition => condition.condType == condType)

/-- AgentReconciler.updateAgentStatus: read the Deployment back, mirror its
counts into replicaStatus, derive the phase (Running exactly when all
declared replicas are ready and at least one is), and refresh the Ready
condition. Fails when the Deployment cannot be fetched. -/
def updateAgentStatus (c : Cluster) (agent : Agent) (now : Nat) : Except String Agent :=
  match findDeployment c agent.name agent.ns with
  | none => Except.error ("failed to get deployment for status update")
  | some deployment =>
      let rs : ReplicaStatus :=
        { desired := deployment.specReplicas
          ready := deployment.readyReplicas
          available := deployment.availableReplicas }
      let st0 := { agent.status with replicaStatus := rs }
      let st1 :=
        if deployment.readyReplicas == deployment.specReplicas && deployment.readyReplicas > 0 then
          { st0 with phase := AgentPhaseRunning, message := "Agent is running and ready" }
        else if deployment.statusReplicas == 0 then
          { st0 with phase := AgentPhasePending, message := "Agent deployment is scaling up" }
        else
          { st0 with phase := AgentPhasePending
                     message := "Agent deployment in progress (" ++ toString deployment.readyReplicas
                       ++ "/" ++ toString deployment.specReplicas ++ " ready)" }
      let st2 := { st1 with lastUpdated := some now }
      let readyCondition : AgentCondition :=
        if st2.phase == AgentPhaseRunning then
          { condType := AgentConditionReady, status := ConditionTrue
            reason := "DeploymentReady", message := "All replicas are ready"
            lastTransitionTime := some now }
        else
          { condType := AgentConditionReady, status := ConditionFalse
            reason := "DeploymentNotReady", message := "Deployment is not yet ready"
            lastTransitionTime := some now }
      let st3 := { st2 with conditions := updateCondition st2.conditions readyCondition }
      Except.ok { agent with status := st3 }

/-- Result of a reconciliation pass that did not error: the requeue delay in
seconds (ctrl.Result, 0 meaning no requeue-after). -/
structure RecResult where
  requeueAfterSeconds : Nat
deriving DecidableEq

/-- Outcome of a reconciliation pass: the (ctrl.Result, error) pair. -/
inductive RecOutcome where
  | ok (res : RecResult)
  | err (msg : String)
deriving DecidableEq

/-- Full observable effect of one reconciliation pass: resulting cluster,
resulting Agent object (metadata and status as persisted), the returned
outcome, and whether the pass performed an AddFinalizer update. -/
structure PassOut where
  cluster : Cluster
  agent : Agent
  outcome : RecOutcome
  finalizerAdded : Bool
deriving DecidableEq

/-- AgentReconciler.updateStatusFailed: set phase Failed with the message,
refresh lastUpdated, record a Degraded=True condition carrying the message,
and return success with a two-minute requeue. -/
def updateStatusFailed (agent : Agent) (message : String) (now : Nat) : Agent × RecOutcome :=
  let degradedCondition : AgentCondition :=
    { condType := AgentConditionDegraded, status := ConditionTrue
      reason := "ReconciliationFailed", message := message
      lastTransitionTime := some now }
  let st := { agent.status with
    phase := AgentPhaseFailed, message := message, lastUpdated := some now }
  let st1 := { st with conditions := updateCondition st.conditions degradedCondition }
  ({ agent with status := st1 }, RecOutcome.ok { requeueAfterSeconds := 120 })

/-- AgentReconciler.cleanupResources: mark the Agent Failed with the
deletion message before the finalizer is removed. -/
def cleanupResources (agent : Agent) (now : Nat) : Agent :=
  { agent with status := { agent.status with
      phase := AgentPhaseFailed, message := "Agent is being deleted", lastUpdated := some now } }

/-- Finalizer step shared shape: add the finalizer when absent, reporting
whether an update was performed (controllerutil.AddFinalizer + Update). -/
def addFinalizerStep (agent : Agent) : Agent × Bool :=
  if agent.finalizers.contains kubeagenticFinalizer then (agent, false)
  else ({ agent with finalizers := agent.finalizers ++ [kubeagenticFinalizer] }, true)

/-- Status seed step of the enhanced reconciler: initialize an empty phase
to Pending. -/
def statusSeedStep (agent : Agent) (message : String) (now : Nat) : Agent :=
  if agent.status.phase == "" then
    { agent with status := { agent.status with
        phase := AgentPhasePending, message := message, lastUpdated := some now } }
  else agent

/-- The seeded agent at the start of an enhanced pass: finalizer ensured,
empty phase initialized to Pending. -/
def seededAgent (agent : Agent) (now : Nat) : Agent :=
  statusSeedStep (addFinalizerStep agent).1 ("Initializing agent deployment") now

/-- Child reconciliation chain of the enhanced pass, in source order:
ConfigMap, Deployment, Service, HPA, Ingress. -/
def reconcileChildren (c : Cluster) (a : Agent) : Cluster :=
  reconcileIngress (reconcileHPA (reconcileService (reconcileDeployment
    (reconcileConfigMap c a) a) a) a) a

/-- AgentReconciler.Reconcile, the enhanced reconciliation pass: finalizer
management and deletion branch, status seed, configuration and secret
validation (failures transition to Failed with a two-minute requeue and no
child writes), then child reconciliation (ConfigMap, Deployment, Service,
HPA, Ingress) and the status refresh, returning a five-minute resync. -/
def AgentReconciler.Reconcile (c : Cluster) (agent : Agent) (now : Nat) : PassOut :=
  if agent.deletionTimestamp == none then
    let added := (addFinalizerStep agent).2
    let a2 := seededAgent agent now
    match validateConfiguration a2 with
    | Except.error e =>
        let fail := updateStatusFailed a2 ("Configuration validation failed: " ++ e) now
        { cluster := c, agent := fail.1, outcome := fail.2, finalizerAdded := added }
    | Except.ok _ =>
        match validateSecretRef c a2 with
        | Except.error e =>
            let fail := updateStatusFailed a2 ("Secret validation failed: " ++ e) now
            { cluster := c, agent := fail.1, outcome := fail.2, finalizerAdded := added }
        | Except.ok _ =>
            let c5 := reconcileChildren c a2
            match updateAgentStatus c5 a2 now with
            | Except.error e =>
                { cluster := c5, agent := a2, outcome := RecOutcome.err e, finalizerAdded := added }
            | Except.ok a3 =>
                { cluster := c5, agent := a3
                  outcome := RecOutcome.ok { requeueAfterSeconds := 300 }, finalizerAdded := added }
  else
    if agent.finalizers.contains kubeagenticFinalizer then
      let a1 := cleanupResources agent now
      let a2 := { a1 with finalizers := a1.finalizers.filter (fun f => f != kubeagenticFinalizer) }
      { cluster := c, agent := a2, outcome := RecOutcome.ok { requeueAfterSeconds := 0 }, finalizerAdded := false }
    else
      { cluster := c, agent := agent, outcome := RecOutcome.ok { requeueAfterSeconds := 0 }, finalizerAdded := false }

/-- SimpleAgentReconciler.createDeployment: build the simple Deployment
(replicas default 1) and create it, or overwrite the spec of an existing
one. -/
def SimpleAgentReconciler.createDeployment (c : Cluster) (agent : Agent) : Cluster :=
  let replicas : Int := match agent.spec.replicas with
    | some n => n
    | none => 1
  let deployment : Deployment :=
    { name := agent.name, ns := agent.ns
      specReplicas := replicas
      readyReplicas := 0, availableReplicas := 0, statusReplicas := 0 }
  match findDeployment c deployment.name deployment.ns with
  | none => { c with deployments := c.deployments ++ [deployment] }
  | some _ =>
      { c with deployments := c.deployments.map (fun d =>
          if d.name == deployment.name && d.ns == deployment.ns
          then { d with specReplicas := deployment.specReplicas } else d) }

/-- SimpleAgentReconciler.createService: a ClusterIP service on port 80
targeting 8080, created or overwritten. -/
def SimpleAgentReconciler.createService (c : Cluster) (agent : Agent) : Cluster :=
  let service : K8sService :=
    { name := agent.name ++ "-service", ns := agent.ns
      svcType := "ClusterIP", port := 80, targetPort := 8080 }
  match findService c service.name service.ns with
  | none => { c with services := c.services ++ [service] }
  | some _ =>
      { c with services := c.services.map (fun s =>
          if s.name == service.name && s.ns == service.ns
          then { s with svcType := service.svcType, port := service.port, targetPort := service.targetPort }
          else s) }

/-- SimpleAgentReconciler.Reconcile, the simplified reconciliation pass: the
finalizer is added (when absent) before the deletion check; the deletion
branch removes the finalizer; otherwise the status is seeded, Deployment
and Service are created, and the phase is set to Running unconditionally
with a five-minute resync. -/
def SimpleAgentReconciler.Reconcile (c : Cluster) (agent : Agent) (now : Nat) : PassOut :=
  let a1 := (addFinalizerStep agent).1
  let added := (addFinalizerStep agent).2
  if a1.deletionTimestamp != none then
    let a2 := { a1 with finalizers := a1.finalizers.filter (fun f => f != kubeagenticFinalizer) }
    { cluster := c, agent := a2, outcome := RecOutcome.ok { requeueAfterSeconds := 0 }, finalizerAdded := added }
  else
    let a2 := statusSeedStep a1 ("Creating agent resources") now
    let c1 := SimpleAgentReconciler.createDeployment c a2
    let c2 := SimpleAgentReconciler.createService c1 a2
    let a3 := { a2 with status := { a2.status with
        phase := AgentPhaseRunning, message := "Agent is running", lastUpdated := some now } }
    { cluster := c2, agent := a3, outcome := RecOutcome.ok { requeueAfterSeconds := 300 }, finalizerAdded := added }

/-- Status record of a freshly created Agent: everything zeroed. -/
def emptyStatus : AgentStatus :=
  { phase := "", message := ""
    replicaStatus := { ready := 0, desired := 0, available := 0 }
    lastUpdated := none, conditions := [] }

/-- Fully defaulted valid spec used by the concrete scenarios (mirrors the
seed test of the spec: openai / gpt-4 / secret s key k). -/
def validSpec : AgentSpec :=
  { provider := "openai", model := "gpt-4", systemPrompt := "hi"
    apiSecretRef := { name := "s", key := "k" }
    endpoint := "", framework := "direct", langgraphConfig := none
    tools := [], replicas := some 1, resources := some defaultResources
    serviceType := "ClusterIP" }

/-- Concrete valid Agent named test-agent in namespace default. -/
def testAgent : Agent :=
  { name := "test-agent", ns := "default", deletionTimestamp := none
    finalizers := [], spec := validSpec, status := emptyStatus }

/-- The same Agent with provider ollama, everything else valid. -/
def ollamaAgent : Agent :=
  { testAgent with spec := { validSpec with provider := "ollama" } }

/-- The same Agent with two replicas. -/
def twoReplicaAgent : Agent :=
  { testAgent with spec := { validSpec with replicas := some 2 } }

/-- The same Agent with replicas left unset. -/
def nilReplicaAgent : Agent :=
  { testAgent with spec := { validSpec with replicas := none } }

/-- Secret s holding key k in namespace default. -/
def secretS : Secret := { name := "s", ns := "default", dataKeys := ["k"] }

/-- Cluster with no objects at all. -/
def emptyCluster : Cluster :=
  { secrets := [], deployments := [], services := [], configMaps := []
    hpas := [], ingresses := [] }

/-- Cluster holding only the credential secret. -/
def clusterWithSecret : Cluster := { emptyCluster with secrets := [secretS] }

/-- Running Agent (phase Running, one ready replica) carrying the
finalizer and marked for deletion. -/
def deletedRunningAgent : Agent :=
  { testAgent with
    deletionTimestamp := some 50
    finalizers := [kubeagenticFinalizer]
    status := { emptyStatus with
      phase := AgentPhaseRunning, message := "Agent is running and ready"
      replicaStatus := { ready := 1, desired := 1, available := 1 } } }

/-- Cluster whose test-agent Deployment reports all replicas ready. -/
def readyCluster : Cluster :=
  { clusterWithSecret with deployments :=
      [{ name := "test-agent", ns := "default"
         specReplicas := 1, readyReplicas := 1, availableReplicas := 1, statusReplicas := 1 }] }

/-- Validity of every field the webhook checks other than the provider:
non-empty model, system prompt and secret reference, a known framework with
its langgraph config when required, replicas inside 1..10 when set, and a
known (or empty) service type. -/
def otherFieldsValid (a : Agent) : Prop :=
  a.spec.model ≠ "" ∧ a.spec.systemPrompt ≠ "" ∧
  a.spec.apiSecretRef.name ≠ "" ∧ a.spec.apiSecretRef.key ≠ "" ∧
  (a.spec.framework = "" ∨ a.spec.framework = "direct" ∨ a.spec.framework = "langgraph") ∧
  (a.spec.framework = "langgraph" → a.spec.langgraphConfig ≠ none) ∧
  (match a.spec.replicas with
   | some n => 1 ≤ n ∧ n ≤ 10
   | none => True) ∧
  (a.spec.serviceType = "" ∨ a.spec.serviceType = "ClusterIP" ∨
   a.spec.serviceType = "NodePort" ∨ a.spec.serviceType = "LoadBalancer")

/-- Conditional-update map interacts with find?: updating exactly the
matching entries maps the first hit through the update. -/
theorem find?_condMap {α : Type} (l : List α) (k : α → Bool) (g : α → α)
    (hg : ∀ x, k x = true → k (g x) = true) :
    (l.map (fun x => if k x then g x else x)).find? k = (l.find? k).map g := by
  induction l with
  | nil => rfl
  | cons h t ih =>
      by_cases hk : k h = true
      · simp [List.find?_cons, hk, hg h hk]
      · simp [List.find?_cons, hk, ih]

/-- Appending a matching element to a list with no match makes it the first
hit. -/
theorem find?_append_single {α : Type} (l : List α) (x : α) (k : α → Bool)
    (h : l.find? k = none) (hx : k x = true) : (l ++ [x]).find? k = some x := by
  induction l with
  | nil => simp [List.find?_cons, hx]
  | cons y t ih =>
      by_cases hy : k y = true
      · simp [List.find?_cons, hy] at h
      · simp only [List.find?_cons, hy] at h
        simp [List.find?_cons, hy, ih h]

/-- Filtering out every match leaves nothing for find? to find. -/
theorem find?_filter_neg {α : Type} (l : List α) (k : α → Bool) :
    (l.filter (fun x => !(k x))).find? k = none := by
  induction l with
  | nil => rfl
  | cons y t ih =>
      by_cases hy : k y = true
      · simp [List.filter_cons, hy, ih]
      · simp [List.filter_cons, hy, List.find?_cons, ih]

/-- reconcileConfigMap only writes the configMaps collection. -/
theorem reconcileConfigMap_frame (c : Cluster) (a : Agent) :
    (reconcileConfigMap c a).secrets = c.secrets ∧
    (reconcileConfigMap c a).deployments = c.deployments ∧
    (reconcileConfigMap c a).services = c.services ∧
    (reconcileConfigMap c a).hpas = c.hpas ∧
    (reconcileConfigMap c a).ingresses = c.ingresses := by
  unfold reconcileConfigMap
  cases h : findConfigMap c (buildConfigMap a).name (buildConfigMap a).ns <;> simp [h]

/-- reconcileDeployment only writes the deployments collection. -/
theorem reconcileDeployment_frame (c : Cluster) (a : Agent) :
    (reconcileDeployment c a).secrets = c.secrets ∧
    (reconcileDeployment c a).services = c.services ∧
    (reconcileDeployment c a).configMaps = c.configMaps ∧
    (reconcileDeployment c a).hpas = c.hpas ∧
    (reconcileDeployment c a).ingresses = c.ingresses := by
  unfold reconcileDeployment
  cases h : findDeployment c (buildDeployment a).name (buildDeployment a).ns <;> simp [h]

/-- reconcileService only writes the services collection. -/
theorem reconcileService_frame (c : Cluster) (a : Agent) :
    (reconcileService c a).secrets = c.secrets ∧
    (reconcileService c a).deployments = c.deployments ∧
    (reconcileService c a).configMaps = c.configMaps ∧
    (reconcileService c a).hpas = c.hpas ∧
    (reconcileService c a).ingresses = c.ingresses := by
  unfold reconcileService
  cases h : findService c (buildService a).name (buildService a).ns <;> simp [h]

/-- reconcileHPA only writes the hpas collection. -/
theorem reconcileHPA_frame (c : Cluster) (a : Agent) :
    (reconcileHPA c a).secrets = c.secrets ∧
    (reconcileHPA c a).deployments = c.deployments ∧
    (reconcileHPA c a).services = c.services ∧
    (reconcileHPA c a).configMaps = c.configMaps ∧
    (reconcileHPA c a).ingresses = c.ingresses := by
  unfold reconcileHPA
  by_cases h : a.spec.replicas == some 1
  · cases hf : findHPA c (a.name ++ "-hpa") a.ns <;> simp [h, hf]
  · cases hf : findHPA c (buildHPA a).name (buildHPA a).ns <;> simp [h, hf]

/-- reconcileIngress only writes the ingresses collection. -/
theorem reconcileIngress_frame (c : Cluster) (a : Agent) :
    (reconcileIngress c a).secrets = c.secrets ∧
    (reconcileIngress c a).deployments = c.deployments ∧
    (reconcileIngress c a).services = c.services ∧
    (reconcileIngress c a).configMaps = c.configMaps ∧
    (reconcileIngress c a).hpas = c.hpas := by
  unfold reconcileIngress
  by_cases h : a.spec.serviceType != "LoadBalancer"
  · cases hf : findIngress c (a.name ++ "-ingress") a.ns <;> simp [h, hf]
  · cases hf : findIngress c (buildIngress a).name (buildIngress a).ns <;> simp [h, hf]

/-- The finalizer step touches only the finalizers list of the Agent. -/
theorem addFinalizerStep_frame (a : Agent) :
    (addFinalizerStep a).1.spec = a.spec ∧
    (addFinalizerStep a).1.name = a.name ∧
    (addFinalizerStep a).1.ns = a.ns ∧
    (addFinalizerStep a).1.deletionTimestamp = a.deletionTimestamp ∧
    (addFinalizerStep a).1.status = a.status := by
  unfold addFinalizerStep
  by_cases h : kubeagenticFinalizer ∈ a.finalizers <;> simp [h]

/-- The status seed step touches only the status of the Agent. -/
theorem statusSeedStep_frame (a : Agent) (m : String) (now : Nat) :
    (statusSeedStep a m now).spec = a.spec ∧
    (statusSeedStep a m now).name = a.name ∧
    (statusSeedStep a m now).ns = a.ns ∧
    (statusSeedStep a m now).deletionTimestamp = a.deletionTimestamp ∧
    (statusSeedStep a m now).finalizers = a.finalizers := by
  unfold statusSeedStep
  by_cases h : a.status.phase == "" <;> simp [h]

/-- validateConfiguration reads only the spec. -/
theorem validateConfiguration_congr (a b : Agent) (h : a.spec = b.spec) :
    validateConfiguration a = validateConfiguration b := by
  unfold validateConfiguration; rw [h]

/-- validateSecretRef reads only the spec and the namespace. -/
theorem validateSecretRef_congr (c : Cluster) (a b : Agent)
    (h : a.spec = b.spec) (hns : a.ns = b.ns) :
    validateSecretRef c a = validateSecretRef c b := by
  unfold validateSecretRef; rw [h, hns]

/-- C6: for every Agent with a set replicas value r (in the validated range,
where int32 arithmetic is exact), the HPA builder produces minReplicas = r,
maxReplicas = 3 * r, scale target the Deployment named after the Agent, and
exactly a CPU utilization target of 70 and a memory utilization target of
80. -/
theorem buildHPA_min_max_target_metrics (agent : Agent) (r : Int)
    (hr : agent.spec.replicas = some r) (_hlo : 1 ≤ r) (_hhi : r ≤ 10) :
    (buildHPA agent).minReplicas = r ∧
    (buildHPA agent).maxReplicas = 3 * r ∧
    (buildHPA agent).scaleTargetKind = "Deployment" ∧
    (buildHPA agent).scaleTargetAPIVersion = "apps/v1" ∧
    (buildHPA agent).scaleTargetName = agent.name ∧
    (buildHPA agent).metrics =
      [{ resourceName := "cpu", averageUtilization := 70 },
       { resourceName := "memory", averageUtilization := 80 }] := by
  simp [buildHPA, hr, mul_comm]

/-- Witness for C6 at replicas = 2: the HPA gets min 2 and max 6. -/
theorem buildHPA_min_max_target_metrics_witness :
    (buildHPA twoReplicaAgent).minReplicas = 2 ∧ (buildHPA twoReplicaAgent).maxReplicas = 6 := by
  have h := buildHPA_min_max_target_metrics twoReplicaAgent 2 rfl (by norm_num) (by norm_num)
  exact ⟨h.1, by rw [h.2.1]; norm_num⟩

/-- C8: the status engine keeps the stored lastTransitionTime when a
condition of the same type exists with an unchanged status value, and
replaces it (with the incoming transition time) exactly when the status
value changed. -/
theorem updateCondition_preserves_transition_time (conditions : List AgentCondition)
    (newCondition old : AgentCondition)
    (h : findCondition conditions newCondition.condType = some old) :
    findCondition (updateCondition conditions newCondition) newCondition.condType =
      some (if old.status = newCondition.status
            then { newCondition with lastTransitionTime := old.lastTransitionTime }
            else newCondition) := by
  induction conditions with
  | nil => simp [findCondition] at h
  | cons condition rest ih =>
      by_cases hc : condition.condType == newCondition.condType
      · have hold : condition = old := by
          simpa [findCondition, List.find?_cons, hc] using h
        subst hold
        by_cases hs : condition.status = newCondition.status
        · simp [updateCondition, hc, findCondition, List.find?_cons, beq_iff_eq, hs]
        · simp [updateCondition, hc, findCondition, List.find?_cons, beq_iff_eq, hs]
      · have hrest : findCondition rest newCondition.condType = some old := by
          simpa [findCondition, List.find?_cons, hc] using h
        have ih2 := ih hrest
        simp only [findCondition] at ih2
        simp [updateCondition, hc, findCondition, List.find?_cons, ih2]

/-- Witness for C8: refreshing a True Ready condition with a new timestamp
keeps the old transition time. -/
theorem updateCondition_preserves_transition_time_witness :
    findCondition
      (updateCondition
        [{ condType := "Ready", status := "True", reason := "DeploymentReady"
           message := "All replicas are ready", lastTransitionTime := some 5 }]
        { condType := "Ready", status := "True", reason := "DeploymentReady"
          message := "All replicas are ready", lastTransitionTime := some 9 })
      "Ready" =
    some { condType := "Ready", status := "True", reason := "DeploymentReady"
           message := "All replicas are ready", lastTransitionTime := some 5 } := by
  have h := updateCondition_preserves_transition_time
    [{ condType := "Ready", status := "True", reason := "DeploymentReady"
       message := "All replicas are ready", lastTransitionTime := some 5 }]
    { condType := "Ready", status := "True", reason := "DeploymentReady"
      message := "All replicas are ready", lastTransitionTime := some 9 }
    { condType := "Ready", status := "True", reason := "DeploymentReady"
      message := "All replicas are ready", lastTransitionTime := some 5 }
    (by simp [findCondition])
  simpa using h

/-- C9: when replicas is unset, reconcileHPA skips the single-replica
delete branch and creates or updates an HPA with minReplicas 1 and
maxReplicas 10. -/
theorem reconcileHPA_nil_replicas_creates (c : Cluster) (agent : Agent)
    (h : agent.spec.replicas = none) :
    ∃ hpa, findHPA (reconcileHPA c agent) (agent.name ++ "-hpa") agent.ns = some hpa ∧
      hpa.minReplicas = 1 ∧ hpa.maxReplicas = 10 := by
  have hcond : (agent.spec.replicas == some 1) = false := by simp [h]
  cases hf : findHPA c (agent.name ++ "-hpa") agent.ns with
  | none =>
      refine ⟨buildHPA agent, ?_, by simp [buildHPA, h], by simp [buildHPA, h]⟩
      have hf2 : findHPA c (buildHPA agent).name (buildHPA agent).ns = none := by
        simpa [buildHPA] using hf
      simp only [reconcileHPA, hcond, Bool.false_eq_true, if_false, hf2]
      unfold findHPA at hf ⊢
      exact find?_append_single _ _ _ hf (by simp [buildHPA])
  | some h0 =>
      refine ⟨{ buildHPA agent with name := h0.name, ns := h0.ns }, ?_,
        by simp [buildHPA, h], by simp [buildHPA, h]⟩
      have hf2 : findHPA c (buildHPA agent).name (buildHPA agent).ns = some h0 := by
        simpa [buildHPA] using hf
      simp only [reconcileHPA, hcond, Bool.false_eq_true, if_false, hf2]
      have hmap := find?_condMap c.hpas
        (fun x => x.name == (buildHPA agent).name && x.ns == (buildHPA agent).ns)
        (fun x => { buildHPA agent with name := x.name, ns := x.ns })
        (fun x hx => by
          simp only [Bool.and_eq_true, beq_iff_eq] at hx
          simp [hx.1, hx.2])
      unfold findHPA at hf2 ⊢
      simp only [buildHPA] at hmap hf2 ⊢
      rw [hmap, hf2]
      rfl

/-- Witness for C9: on the empty cluster, an Agent with unset replicas gets
an HPA with min 1 and max 10. -/
theorem reconcileHPA_nil_replicas_creates_witness :
    nilReplicaAgent.spec.replicas = none ∧
    (∃ hpa, findHPA (reconcileHPA emptyCluster nilReplicaAgent)
        (nilReplicaAgent.name ++ "-hpa") nilReplicaAgent.ns = some hpa ∧
      hpa.minReplicas = 1 ∧ hpa.maxReplicas = 10) :=
  ⟨rfl, reconcileHPA_nil_replicas_creates emptyCluster nilReplicaAgent rfl⟩

/-- C7: the admission defaulter sets framework direct, replicas 1,
serviceType ClusterIP and the default resource record only when the
respective field is unset, never overwrites a set value, and is
idempotent. -/
theorem default_only_fills_unset_and_idempotent (a : Agent) :
    ((a.spec.framework = "" → (Agent.Default a).spec.framework = "direct") ∧
     (a.spec.framework ≠ "" → (Agent.Default a).spec.framework = a.spec.framework)) ∧
    ((a.spec.replicas = none → (Agent.Default a).spec.replicas = some 1) ∧
     (a.spec.replicas ≠ none → (Agent.Default a).spec.replicas = a.spec.replicas)) ∧
    ((a.spec.serviceType = "" → (Agent.Default a).spec.serviceType = "ClusterIP") ∧
     (a.spec.serviceType ≠ "" → (Agent.Default a).spec.serviceType = a.spec.serviceType)) ∧
    ((a.spec.resources = none → (Agent.Default a).spec.resources = some defaultResources) ∧
     (a.spec.resources ≠ none → (Agent.Default a).spec.resources = a.spec.resources)) ∧
    Agent.Default (Agent.Default a) = Agent.Default a := by
  unfold Agent.Default
  by_cases h1 : a.spec.framework = "" <;>
  by_cases h2 : a.spec.replicas = none <;>
  by_cases h3 : a.spec.serviceType = "" <;>
  by_cases h4 : a.spec.resources = none <;>
    simp_all [beq_iff_eq]

/-- Witness for C7: a minimally populated Agent picks up all four
defaults. -/
theorem default_only_fills_unset_and_idempotent_witness :
    (Agent.Default
      { name := "m", ns := "default", deletionTimestamp := none, finalizers := []
        spec := { provider := "openai", model := "gpt-4", systemPrompt := "hi"
                  apiSecretRef := { name := "s", key := "k" }, endpoint := ""
                  framework := "", langgraphConfig := none, tools := []
                  replicas := none, resources := none, serviceType := "" }
        status := emptyStatus }).spec.framework = "direct" ∧
    (Agent.Default
      { name := "m", ns := "default", deletionTimestamp := none, finalizers := []
        spec := { provider := "openai", model := "gpt-4", systemPrompt := "hi"
                  apiSecretRef := { name := "s", key := "k" }, endpoint := ""
                  framework := "", langgraphConfig := none, tools := []
                  replicas := none, resources := none, serviceType := "" }
        status := emptyStatus }).spec.replicas = some 1 ∧
    (Agent.Default
      { name := "m", ns := "default", deletionTimestamp := none, finalizers := []
        spec := { provider := "openai", model := "gpt-4", systemPrompt := "hi"
                  apiSecretRef := { name := "s", key := "k" }, endpoint := ""
                  framework := "", langgraphConfig := none, tools := []
                  replicas := none, resources := none, serviceType := "" }
        status := emptyStatus }).spec.serviceType = "ClusterIP" ∧
    (Agent.Default
      { name := "m", ns := "default", deletionTimestamp := none, finalizers := []
        spec := { provider := "openai", model := "gpt-4", systemPrompt := "hi"
                  apiSecretRef := { name := "s", key := "k" }, endpoint := ""
                  framework := "", langgraphConfig := none, tools := []
                  replicas := none, resources := none, serviceType := "" }
        status := emptyStatus }).spec.resources = some defaultResources := by
  have h := default_only_fills_unset_and_idempotent
    { name := "m", ns := "default", deletionTimestamp := none, finalizers := []
      spec := { provider := "openai", model := "gpt-4", systemPrompt := "hi"
                apiSecretRef := { name := "s", key := "k" }, endpoint := ""
                framework := "", langgraphConfig := none, tools := []
                replicas := none, resources := none, serviceType := "" }
      status := emptyStatus }
  exact ⟨h.1.1 rfl, h.2.1.1 rfl, h.2.2.1.1 rfl, h.2.2.2.1.1 rfl⟩

/-- Counterexample for C1: an Agent that is valid in every other field but
sets provider ollama is rejected by the admission validator and by the
reconciler validation, although the claim says ollama is admitted. -/
theorem provider_ollama_rejected :
    validateAgent ollamaAgent ≠ none ∧ validateConfiguration ollamaAgent ≠ Except.ok () := by
  constructor
  · intro h
    simp [validateAgent, validateAgentErrs, ollamaAgent, validSpec, testAgent, validProviders,
      validServiceTypes] at h
  · intro h
    simp [validateConfiguration, ollamaAgent, validSpec, testAgent, validProviders] at h

/-- C1 (amended): for every Agent whose other fields are valid, both the
admission validator and the reconciler validation admit the object exactly
when the provider is one of the four enumerated values openai, gemini,
claude, vllm (ollama is rejected), and reject it with a descriptive error
otherwise; the two validators agree on this provider set. -/
theorem provider_enumeration_amended (a : Agent) (h : otherFieldsValid a) :
    (validateAgent a = none ↔ a.spec.provider ∈ validProviders) ∧
    (validateConfiguration a = Except.ok () ↔ a.spec.provider ∈ validProviders) := by
  obtain ⟨hm, hsp, hn, hk, hfw, hlg, hrep, hsvc⟩ := h
  have hfwB : (a.spec.framework != "" && a.spec.framework != "direct"
      && a.spec.framework != "langgraph") = false := by
    rcases hfw with hf | hf | hf <;> simp [hf]
  have hlgB : (a.spec.framework == "langgraph" && a.spec.langgraphConfig == none) = false := by
    by_cases hf : a.spec.framework = "langgraph"
    · cases hcfg : a.spec.langgraphConfig with
      | none => exact absurd hcfg (hlg hf)
      | some x => simp [hcfg]
    · simp [hf]
  have hprovIff : (validProviders.any (fun p => a.spec.provider == p)) = true
      ↔ a.spec.provider ∈ validProviders := by
    simp [List.any_eq_true, beq_iff_eq]
  constructor
  · unfold validateAgent validateAgentErrs
    by_cases hp : (validProviders.any (fun p => a.spec.provider == p)) = true
    · have hmem := hprovIff.mp hp
      cases hr : a.spec.replicas with
      | none =>
          rcases hsvc with hs | hs | hs | hs <;>
            simp [hp, hm, hsp, hn, hk, hfwB, hlgB, hr, hs, hmem, validServiceTypes]
      | some n =>
          rw [hr] at hrep
          have hrB : (n < 1 || n > 10) = false := by
            simp [not_lt.mpr hrep.1, not_lt.mpr hrep.2]
          rcases hsvc with hs | hs | hs | hs <;>
            simp [hp, hm, hsp, hn, hk, hfwB, hlgB, hr, hrB, hs, hmem, validServiceTypes]
    · simp only [Bool.not_eq_true] at hp
      have hnmem : a.spec.provider ∉ validProviders :=
        fun hmem2 => by simpa using (hprovIff.mpr hmem2).symm.trans hp
      simp [hp, hnmem]
  · unfold validateConfiguration
    by_cases hp : (validProviders.any (fun p => a.spec.provider == p)) = true
    · have hmem := hprovIff.mp hp
      cases hr : a.spec.replicas with
      | none => simp [hp, hfwB, hlgB, hr, hmem]
      | some n =>
          rw [hr] at hrep
          have hrB : (n < 1 || n > 10) = false := by
            simp [not_lt.mpr hrep.1, not_lt.mpr hrep.2]
          simp [hp, hfwB, hlgB, hr, hrB, hmem]
    · simp only [Bool.not_eq_true] at hp
      have hnmem : a.spec.provider ∉ validProviders :=
        fun hmem2 => by simpa using (hprovIff.mpr hmem2).symm.trans hp
      simp [hp, hnmem]

/-- Witness for C1 (amended) at the valid openai Agent: both validators
admit it. -/
theorem provider_enumeration_amended_witness :
    otherFieldsValid testAgent ∧
    validateAgent testAgent = none ∧ validateConfiguration testAgent = Except.ok () := by
  have hv : otherFieldsValid testAgent := by
    simp [otherFieldsValid, testAgent, validSpec]
  have h := provider_enumeration_amended testAgent hv
  exact ⟨hv, h.1.mpr (by simp [testAgent, validSpec, validProviders]),
    h.2.mpr (by simp [testAgent, validSpec, validProviders])⟩

/-- updateCondition always stores an entry of the new condition type whose
status, reason and message come from the new condition. -/
theorem findCondition_updateCondition (conds : List AgentCondition) (nc : AgentCondition) :
    ∃ stored, findCondition (updateCondition conds nc) nc.condType = some stored ∧
      stored.status = nc.status ∧ stored.reason = nc.reason ∧ stored.message = nc.message := by
  induction conds with
  | nil => exact ⟨nc, by simp [updateCondition, findCondition], rfl, rfl, rfl⟩
  | cons cond rest ih =>
      by_cases hc : cond.condType == nc.condType
      · by_cases hs : cond.status == nc.status
        · refine ⟨{ nc with lastTransitionTime := cond.lastTransitionTime }, ?_, rfl, rfl, rfl⟩
          simp [updateCondition, hc, hs, findCondition, List.find?_cons]
        · refine ⟨nc, ?_, rfl, rfl, rfl⟩
          simp [updateCondition, hc, hs, findCondition, List.find?_cons]
      · obtain ⟨stored, hst, h1, h2, h3⟩ := ih
        refine ⟨stored, ?_, h1, h2, h3⟩
        simp only [findCondition] at hst
        simp [updateCondition, hc, findCondition, List.find?_cons, hst]

/-- updateStatusFailed marks the Agent Failed with the given message,
stores a Degraded=True condition carrying that message, and yields a
two-minute success requeue. -/
theorem updateStatusFailed_spec (agent : Agent) (msg : String) (now : Nat) :
    (updateStatusFailed agent msg now).1.status.phase = AgentPhaseFailed ∧
    (updateStatusFailed agent msg now).1.status.message = msg ∧
    (∃ cond, findCondition (updateStatusFailed agent msg now).1.status.conditions
        AgentConditionDegraded = some cond ∧
      cond.status = ConditionTrue ∧ cond.message = msg) ∧
    (updateStatusFailed agent msg now).2 = RecOutcome.ok { requeueAfterSeconds := 120 } := by
  refine ⟨rfl, rfl, ?_, rfl⟩
  obtain ⟨stored, hst, h1, h2, h3⟩ := findCondition_updateCondition
    ({ agent.status with phase := AgentPhaseFailed, message := msg, lastUpdated := some now }).conditions
    { condType := AgentConditionDegraded, status := ConditionTrue, reason := "ReconciliationFailed", message := msg, lastTransitionTime := some now }
  exact ⟨stored, hst, h1, h3⟩

/-- C4: a reconciliation pass on a live Agent whose configuration or
credential check fails writes phase Failed with a Degraded=True condition
carrying the failure reason, touches no cluster object (in particular it
creates no Deployment), and returns success with a two-minute requeue
instead of an error. -/
theorem failed_validation_no_children (c : Cluster) (agent : Agent) (now : Nat)
    (hdt : agent.deletionTimestamp = none)
    (hfail : validateConfiguration agent ≠ Except.ok () ∨
             validateSecretRef c agent ≠ Except.ok ()) :
    (AgentReconciler.Reconcile c agent now).cluster = c ∧
    (AgentReconciler.Reconcile c agent now).agent.status.phase = AgentPhaseFailed ∧
    (∃ e, (AgentReconciler.Reconcile c agent now).agent.status.message
            = "Configuration validation failed: " ++ e ∨
          (AgentReconciler.Reconcile c agent now).agent.status.message
            = "Secret validation failed: " ++ e) ∧
    (∃ cond, findCondition (AgentReconciler.Reconcile c agent now).agent.status.conditions
        AgentConditionDegraded = some cond ∧
      cond.status = ConditionTrue ∧
      cond.message = (AgentReconciler.Reconcile c agent now).agent.status.message) ∧
    (AgentReconciler.Reconcile c agent now).outcome
      = RecOutcome.ok { requeueAfterSeconds := 120 } := by
  have hspec : (seededAgent agent now).spec = agent.spec := by
    rw [seededAgent, (statusSeedStep_frame _ _ _).1, (addFinalizerStep_frame agent).1]
  have hns : (seededAgent agent now).ns = agent.ns := by
    rw [seededAgent, (statusSeedStep_frame _ _ _).2.2.1, (addFinalizerStep_frame agent).2.2.1]
  have hvc2 := validateConfiguration_congr (seededAgent agent now) agent hspec
  have hvs2 := validateSecretRef_congr c (seededAgent agent now) agent hspec hns
  unfold AgentReconciler.Reconcile
  simp only [hdt, beq_self_eq_true, if_true]
  cases hvc : validateConfiguration (seededAgent agent now) with
  | error e =>
      have h := updateStatusFailed_spec (seededAgent agent now)
        ("Configuration validation failed: " ++ e) now
      exact ⟨rfl, h.1, ⟨e, Or.inl h.2.1⟩, by
        obtain ⟨cond, hc1, hc2, hc3⟩ := h.2.2.1
        exact ⟨cond, hc1, hc2, hc3.trans h.2.1.symm⟩, h.2.2.2⟩
  | ok u =>
      cases hvs : validateSecretRef c (seededAgent agent now) with
      | error e =>
          have h := updateStatusFailed_spec (seededAgent agent now)
            ("Secret validation failed: " ++ e) now
          exact ⟨rfl, h.1, ⟨e, Or.inr h.2.1⟩, by
            obtain ⟨cond, hc1, hc2, hc3⟩ := h.2.2.1
            exact ⟨cond, hc1, hc2, hc3.trans h.2.1.symm⟩, h.2.2.2⟩
      | ok v =>
          exfalso
          rcases hfail with hf | hf
          · exact hf ((hvc2.symm.trans hvc).symm ▸ rfl)
          · exact hf ((hvs2.symm.trans hvs).symm ▸ rfl)

/-- Witness for C4: a valid Agent whose secret is absent ends the pass
Failed with the two-minute requeue and an unchanged cluster. -/
theorem failed_validation_no_children_witness :
    (AgentReconciler.Reconcile emptyCluster testAgent 0).cluster = emptyCluster ∧
    (AgentReconciler.Reconcile emptyCluster testAgent 0).agent.status.phase = AgentPhaseFailed ∧
    (AgentReconciler.Reconcile emptyCluster testAgent 0).outcome
      = RecOutcome.ok { requeueAfterSeconds := 120 } := by
  have h := failed_validation_no_children emptyCluster testAgent 0 rfl
    (Or.inr (by simp [validateSecretRef, findSecret, emptyCluster, testAgent]))
  exact ⟨h.1, h.2.1, h.2.2.2.2⟩

/-- C10: a pass on an Agent with deletion timestamp set and the finalizer
present sets phase Failed with the message Agent is being deleted on the
teardown path and removes the finalizer, leaving the cluster untouched. -/
theorem deletion_pass_marks_failed (c : Cluster) (agent : Agent) (now t : Nat)
    (hdt : agent.deletionTimestamp = some t)
    (hfin : agent.finalizers.contains kubeagenticFinalizer = true) :
    (AgentReconciler.Reconcile c agent now).agent.status.phase = AgentPhaseFailed ∧
    (AgentReconciler.Reconcile c agent now).agent.status.message = "Agent is being deleted" ∧
    kubeagenticFinalizer ∉ (AgentReconciler.Reconcile c agent now).agent.finalizers ∧
    (AgentReconciler.Reconcile c agent now).cluster = c ∧
    (AgentReconciler.Reconcile c agent now).outcome
      = RecOutcome.ok { requeueAfterSeconds := 0 } := by
  have hmem : kubeagenticFinalizer ∈ agent.finalizers := by simpa using hfin
  unfold AgentReconciler.Reconcile
  simp [hdt, hmem, cleanupResources, List.mem_filter]

/-- Witness for C10: deleting the healthy Running agent passes through
phase Failed. -/
theorem deletion_pass_marks_failed_witness :
    deletedRunningAgent.status.phase = AgentPhaseRunning ∧
    (AgentReconciler.Reconcile clusterWithSecret deletedRunningAgent 60).agent.status.phase
      = AgentPhaseFailed ∧
    (AgentReconciler.Reconcile clusterWithSecret deletedRunningAgent 60).agent.status.message
      = "Agent is being deleted" := by
  have h := deletion_pass_marks_failed clusterWithSecret deletedRunningAgent 60 50 rfl (by decide)
  exact ⟨rfl, h.1, h.2.1⟩

/-- On a live Agent that passes configuration and secret validation, the
enhanced pass runs the child-reconciliation chain and the status refresh on
the seeded agent. -/
theorem Reconcile_valid_run (c : Cluster) (agent : Agent) (now : Nat)
    (hdt : agent.deletionTimestamp = none)
    (hval : validateConfiguration agent = Except.ok ())
    (hsec : validateSecretRef c agent = Except.ok ()) :
    AgentReconciler.Reconcile c agent now =
      match updateAgentStatus (reconcileChildren c (seededAgent agent now))
          (seededAgent agent now) now with
      | Except.error e =>
          { cluster := reconcileChildren c (seededAgent agent now)
            agent := seededAgent agent now, outcome := RecOutcome.err e
            finalizerAdded := (addFinalizerStep agent).2 }
      | Except.ok a3 =>
          { cluster := reconcileChildren c (seededAgent agent now), agent := a3
            outcome := RecOutcome.ok { requeueAfterSeconds := 300 }
            finalizerAdded := (addFinalizerStep agent).2 } := by
  have hspec : (seededAgent agent now).spec = agent.spec := by
    rw [seededAgent, (statusSeedStep_frame _ _ _).1, (addFinalizerStep_frame agent).1]
  have hns : (seededAgent agent now).ns = agent.ns := by
    rw [seededAgent, (statusSeedStep_frame _ _ _).2.2.1, (addFinalizerStep_frame agent).2.2.1]
  have hvc2 : validateConfiguration (seededAgent agent now) = Except.ok () :=
    (validateConfiguration_congr _ agent hspec).trans hval
  have hvs2 : validateSecretRef c (seededAgent agent now) = Except.ok () :=
    (validateSecretRef_congr c _ agent hspec hns).trans hsec
  unfold AgentReconciler.Reconcile
  simp only [hdt, beq_self_eq_true, if_true, hvc2, hvs2]

/-- reconcileDeployment leaves a Deployment named after the Agent in the
cluster. -/
theorem findDeployment_reconcileDeployment (c : Cluster) (agent : Agent) :
    findDeployment (reconcileDeployment c agent) agent.name agent.ns ≠ none := by
  unfold reconcileDeployment
  cases hf : findDeployment c (buildDeployment agent).name (buildDeployment agent).ns with
  | none =>
      unfold findDeployment at hf ⊢
      simp only [buildDeployment] at hf ⊢
      simp only [hf]
      rw [find?_append_single _ _ _ hf (by simp)]
      simp
  | some d0 =>
      unfold findDeployment at hf ⊢
      simp only [buildDeployment] at hf ⊢
      simp only [hf]
      have hmap := find?_condMap c.deployments
        (fun x => x.name == agent.name && x.ns == agent.ns)
        (fun x => { x with specReplicas := match agent.spec.replicas with
                                           | some n => n
                                           | none => 1 })
        (fun x hx => hx)
      simp only [hmap, hf]
      simp

/-- With replicas set to exactly 1, reconcileHPA leaves no HPA behind. -/
theorem findHPA_reconcileHPA_single (c : Cluster) (agent : Agent)
    (hr : agent.spec.replicas = some 1) :
    findHPA (reconcileHPA c agent) (agent.name ++ "-hpa") agent.ns = none := by
  have hcond : (agent.spec.replicas == some 1) = true := by simp [hr]
  cases hf : findHPA c (agent.name ++ "-hpa") agent.ns with
  | none =>
      simp only [reconcileHPA, hcond, if_true, hf]
  | some h0 =>
      simp only [reconcileHPA, hcond, if_true, hf]
      unfold findHPA
      exact find?_filter_neg c.hpas (fun h => h.name == agent.name ++ "-hpa" && h.ns == agent.ns)

/-- With replicas different from exactly-1 (including unset), reconcileHPA
leaves an HPA named after the Agent. -/
theorem findHPA_reconcileHPA_multi (c : Cluster) (agent : Agent)
    (hcond : (agent.spec.replicas == some 1) = false) :
    findHPA (reconcileHPA c agent) (agent.name ++ "-hpa") agent.ns ≠ none := by
  cases hf : findHPA c (buildHPA agent).name (buildHPA agent).ns with
  | none =>
      simp only [reconcileHPA, hcond, Bool.false_eq_true, if_false, hf]
      unfold findHPA at hf ⊢
      simp only [buildHPA] at hf ⊢
      rw [find?_append_single _ _ _ hf (by simp)]
      simp
  | some h0 =>
      simp only [reconcileHPA, hcond, Bool.false_eq_true, if_false, hf]
      have hmap := find?_condMap c.hpas
        (fun x => x.name == agent.name ++ "-hpa" && x.ns == agent.ns)
        (fun x => { buildHPA agent with name := x.name, ns := x.ns })
        (fun x hx => by
          simp only [Bool.and_eq_true, beq_iff_eq] at hx
          simp [hx.1, hx.2])
      unfold findHPA at hf ⊢
      simp only [buildHPA] at hmap hf ⊢
      rw [hmap, hf]
      simp

/-- With a non-LoadBalancer service type, reconcileIngress leaves no
Ingress behind. -/
theorem findIngress_reconcileIngress_nonlb (c : Cluster) (agent : Agent)
    (hs : agent.spec.serviceType ≠ "LoadBalancer") :
    findIngress (reconcileIngress c agent) (agent.name ++ "-ingress") agent.ns = none := by
  have hcond : (agent.spec.serviceType != "LoadBalancer") = true := by simp [hs]
  cases hf : findIngress c (agent.name ++ "-ingress") agent.ns with
  | none =>
      simp only [reconcileIngress, hcond, if_true, hf]
  | some i0 =>
      simp only [reconcileIngress, hcond, if_true, hf]
      unfold findIngress
      exact find?_filter_neg c.ingresses
        (fun i => i.name == agent.name ++ "-ingress" && i.ns == agent.ns)

/-- With service type LoadBalancer, reconcileIngress leaves an Ingress
named after the Agent. -/
theorem findIngress_reconcileIngress_lb (c : Cluster) (agent : Agent)
    (hs : agent.spec.serviceType = "LoadBalancer") :
    findIngress (reconcileIngress c agent) (agent.name ++ "-ingress") agent.ns ≠ none := by
  have hcond : (agent.spec.serviceType != "LoadBalancer") = false := by simp [hs]
  cases hf : findIngress c (buildIngress agent).name (buildIngress agent).ns with
  | none =>
      simp only [reconcileIngress, hcond, Bool.false_eq_true, if_false, hf]
      unfold findIngress at hf ⊢
      simp only [buildIngress] at hf ⊢
      rw [find?_append_single _ _ _ hf (by simp)]
      simp
  | some i0 =>
      simp only [reconcileIngress, hcond, Bool.false_eq_true, if_false, hf]
      have hmap := find?_condMap c.ingresses
        (fun x => x.name == agent.name ++ "-ingress" && x.ns == agent.ns)
        (fun x => { buildIngress agent with name := x.name, ns := x.ns })
        (fun x hx => by
          simp only [Bool.and_eq_true, beq_iff_eq] at hx
          simp [hx.1, hx.2])
      unfold findIngress at hf ⊢
      simp only [buildIngress] at hmap hf ⊢
      rw [hmap, hf]
      simp

/-- The seeded agent keeps the original spec and identity. -/
theorem seededAgent_frame (agent : Agent) (now : Nat) :
    (seededAgent agent now).spec = agent.spec ∧
    (seededAgent agent now).name = agent.name ∧
    (seededAgent agent now).ns = agent.ns := by
  refine ⟨?_, ?_, ?_⟩
  · rw [seededAgent, (statusSeedStep_frame _ _ _).1, (addFinalizerStep_frame agent).1]
  · rw [seededAgent, (statusSeedStep_frame _ _ _).2.1, (addFinalizerStep_frame agent).2.1]
  · rw [seededAgent, (statusSeedStep_frame _ _ _).2.2.1, (addFinalizerStep_frame agent).2.2.1]

/-- The status refresh succeeds whenever the Deployment is present. -/
theorem updateAgentStatus_ok_of_deployment (c : Cluster) (a : Agent) (now : Nat)
    (h : findDeployment c a.name a.ns ≠ none) :
    ∃ a3, updateAgentStatus c a now = Except.ok a3 := by
  unfold updateAgentStatus
  cases hfd : findDeployment c a.name a.ns with
  | none => exact absurd hfd h
  | some d => exact ⟨_, rfl⟩

/-- After the child chain, the Deployment named after the Agent exists. -/
theorem findDeployment_chain (c : Cluster) (a : Agent) :
    findDeployment (reconcileChildren c a) a.name a.ns ≠ none := by
  have h2 := findDeployment_reconcileDeployment (reconcileConfigMap c a) a
  unfold reconcileChildren
  unfold findDeployment at h2 ⊢
  rw [(reconcileIngress_frame _ _).2.1, (reconcileHPA_frame _ _).2.1,
    (reconcileService_frame _ _).2.1]
  exact h2

/-- The HPA view of the child chain is decided by the HPA step. -/
theorem findHPA_chain (c : Cluster) (a : Agent) (name ns : String) :
    findHPA (reconcileChildren c a) name ns =
      findHPA (reconcileHPA (reconcileService (reconcileDeployment
        (reconcileConfigMap c a) a) a) a) name ns := by
  unfold reconcileChildren findHPA
  rw [(reconcileIngress_frame _ _).2.2.2.2]

/-- A valid replicas bound extracted from a successful configuration
validation. -/
theorem validateConfiguration_replicas_bounds (agent : Agent) (r : Int)
    (hval : validateConfiguration agent = Except.ok ())
    (hr : agent.spec.replicas = some r) : 1 ≤ r ∧ r ≤ 10 := by
  unfold validateConfiguration at hval
  rw [hr] at hval
  split_ifs at hval with h1 h2 h3
  simp at hval
  omega

/-- C5: after a successful pass on a valid Agent with replicas set, the HPA
named agent-hpa exists in the resulting cluster iff replicas exceed 1, and
the Ingress named agent-ingress exists iff the service type is
LoadBalancer; the pass returns success with the five-minute resync. -/
theorem hpa_ingress_conditional_children (c : Cluster) (agent : Agent) (now : Nat) (r : Int)
    (hdt : agent.deletionTimestamp = none)
    (hval : validateConfiguration agent = Except.ok ())
    (hsec : validateSecretRef c agent = Except.ok ())
    (hr : agent.spec.replicas = some r) :
    (AgentReconciler.Reconcile c agent now).outcome
      = RecOutcome.ok { requeueAfterSeconds := 300 } ∧
    (findHPA (AgentReconciler.Reconcile c agent now).cluster
        (agent.name ++ "-hpa") agent.ns ≠ none ↔ 1 < r) ∧
    (findIngress (AgentReconciler.Reconcile c agent now).cluster
        (agent.name ++ "-ingress") agent.ns ≠ none
      ↔ agent.spec.serviceType = "LoadBalancer") := by
  obtain ⟨hspec, hname, hns⟩ := seededAgent_frame agent now
  have hbounds := validateConfiguration_replicas_bounds agent r hval hr
  have hrun := Reconcile_valid_run c agent now hdt hval hsec
  have hdep : findDeployment (reconcileChildren c (seededAgent agent now))
      (seededAgent agent now).name (seededAgent agent now).ns ≠ none :=
    findDeployment_chain c (seededAgent agent now)
  obtain ⟨a3, ha3⟩ := updateAgentStatus_ok_of_deployment _ _ now hdep
  have hcl : (AgentReconciler.Reconcile c agent now).cluster
      = reconcileChildren c (seededAgent agent now) := by
    rw [hrun, ha3]
  have hout : (AgentReconciler.Reconcile c agent now).outcome
      = RecOutcome.ok { requeueAfterSeconds := 300 } := by
    rw [hrun, ha3]
  refine ⟨hout, ?_, ?_⟩
  · rw [hcl, show agent.name = (seededAgent agent now).name from hname.symm,
      show agent.ns = (seededAgent agent now).ns from hns.symm, findHPA_chain]
    constructor
    · intro hne
      by_contra hle
      have hr1 : (seededAgent agent now).spec.replicas = some 1 := by
        rw [hspec, hr]
        have : r = 1 := by omega
        rw [this]
      exact hne (findHPA_reconcileHPA_single _ _ hr1)
    · intro hgt
      have hcond : ((seededAgent agent now).spec.replicas == some 1) = false := by
        rw [hspec, hr]
        simp only [beq_eq_false_iff_ne, ne_eq, Option.some.injEq]
        omega
      exact findHPA_reconcileHPA_multi _ _ hcond
  · rw [hcl, show agent.name = (seededAgent agent now).name from hname.symm,
      show agent.ns = (seededAgent agent now).ns from hns.symm]
    unfold reconcileChildren
    constructor
    · intro hne
      by_contra hnlb
      have hne2 : (seededAgent agent now).spec.serviceType ≠ "LoadBalancer" := by
        rw [hspec]; exact hnlb
      exact hne (findIngress_reconcileIngress_nonlb _ _ hne2)
    · intro hlb
      have heq : (seededAgent agent now).spec.serviceType = "LoadBalancer" := by
        rw [hspec]; exact hlb
      exact findIngress_reconcileIngress_lb _ _ heq

/-- Witness for C5: with two replicas and service type ClusterIP the pass
leaves an HPA and no Ingress. -/
theorem hpa_ingress_conditional_children_witness :
    findHPA (AgentReconciler.Reconcile clusterWithSecret twoReplicaAgent 0).cluster
      (twoReplicaAgent.name ++ "-hpa") twoReplicaAgent.ns ≠ none ∧
    findIngress (AgentReconciler.Reconcile clusterWithSecret twoReplicaAgent 0).cluster
      (twoReplicaAgent.name ++ "-ingress") twoReplicaAgent.ns = none := by
  have h := hpa_ingress_conditional_children clusterWithSecret twoReplicaAgent 0 2
    rfl rfl rfl rfl
  refine ⟨h.2.1.mpr (by norm_num), ?_⟩
  have hiff := h.2.2
  have hnot : ¬ (findIngress (AgentReconciler.Reconcile clusterWithSecret twoReplicaAgent 0).cluster
      (twoReplicaAgent.name ++ "-ingress") twoReplicaAgent.ns ≠ none) :=
    fun hne => absurd (hiff.mp hne) (by simp [twoReplicaAgent, testAgent, validSpec])
  exact not_not.mp hnot

/-- The status refresh only writes the status of the Agent. -/
theorem updateAgentStatus_finalizers (c : Cluster) (a : Agent) (now : Nat) (a3 : Agent)
    (h : updateAgentStatus c a now = Except.ok a3) :
    a3.finalizers = a.finalizers ∧ a3.name = a.name ∧ a3.ns = a.ns := by
  unfold updateAgentStatus at h
  cases hfd : findDeployment c a.name a.ns with
  | none => rw [hfd] at h; exact absurd h (by simp)
  | some d =>
      rw [hfd] at h
      simp only [Except.ok.injEq] at h
      subst h
      exact ⟨rfl, rfl, rfl⟩

/-- Counterexample for C2: on a valid Agent lacking the finalizer, the pass
adds the finalizer and still performs child reconciliation in the same
pass (a Deployment appears), rather than returning immediately. -/
theorem finalizer_pass_counterexample :
    (AgentReconciler.Reconcile clusterWithSecret testAgent 0).finalizerAdded = true ∧
    findDeployment (AgentReconciler.Reconcile clusterWithSecret testAgent 0).cluster
      "test-agent" "default" ≠ none := by
  have hrun := Reconcile_valid_run clusterWithSecret testAgent 0 rfl rfl rfl
  have hdep := findDeployment_chain clusterWithSecret (seededAgent testAgent 0)
  obtain ⟨a3, ha3⟩ := updateAgentStatus_ok_of_deployment _ _ 0 hdep
  constructor
  · rw [hrun]
    simp only [ha3]
    rfl
  · rw [hrun]
    simp only [ha3]
    exact hdep

/-- C2 (amended): a pass on a live Agent lacking the finalizer adds it and
then continues the same pass, performing child reconciliation (the claim's
immediate return does not happen); the enhanced reconciler never performs
the finalizer-add update when the deletion timestamp is set, while the
simple reconciler performs it even then. -/
theorem finalizer_add_continue_amended :
    (∀ (c : Cluster) (agent : Agent) (now : Nat),
      agent.deletionTimestamp = none →
      agent.finalizers.contains kubeagenticFinalizer = false →
      validateConfiguration agent = Except.ok () →
      validateSecretRef c agent = Except.ok () →
      (AgentReconciler.Reconcile c agent now).finalizerAdded = true ∧
      kubeagenticFinalizer ∈ (AgentReconciler.Reconcile c agent now).agent.finalizers ∧
      findDeployment (AgentReconciler.Reconcile c agent now).cluster
        agent.name agent.ns ≠ none) ∧
    (∀ (c : Cluster) (agent : Agent) (now : Nat),
      agent.deletionTimestamp ≠ none →
      (AgentReconciler.Reconcile c agent now).finalizerAdded = false) ∧
    (∀ (c : Cluster) (agent : Agent) (now : Nat),
      agent.finalizers.contains kubeagenticFinalizer = false →
      (SimpleAgentReconciler.Reconcile c agent now).finalizerAdded = true) := by
  refine ⟨?_, ?_, ?_⟩
  · intro c agent now hdt hfin hval hsec
    have hrun := Reconcile_valid_run c agent now hdt hval hsec
    have hdep := findDeployment_chain c (seededAgent agent now)
    obtain ⟨a3, ha3⟩ := updateAgentStatus_ok_of_deployment _ _ now hdep
    have hmem : ¬ kubeagenticFinalizer ∈ agent.finalizers := by simpa using hfin
    have hadd : (addFinalizerStep agent).2 = true := by
      unfold addFinalizerStep
      simp [hmem]
    refine ⟨?_, ?_, ?_⟩
    · rw [hrun]
      simp only [ha3]
      exact hadd
    · rw [hrun]
      simp only [ha3]
      rw [(updateAgentStatus_finalizers _ _ _ _ ha3).1]
      rw [seededAgent, (statusSeedStep_frame _ _ _).2.2.2.2]
      unfold addFinalizerStep
      simp [hmem]
    · rw [hrun]
      simp only [ha3]
      rw [← (seededAgent_frame agent now).2.1, ← (seededAgent_frame agent now).2.2]
      exact hdep
  · intro c agent now hdt
    unfold AgentReconciler.Reconcile
    cases hdt2 : agent.deletionTimestamp with
    | none => exact absurd hdt2 hdt
    | some t =>
        simp only [hdt2]
        by_cases hf : kubeagenticFinalizer ∈ agent.finalizers <;> simp [hf]
  · intro c agent now hfin
    have hmem : ¬ kubeagenticFinalizer ∈ agent.finalizers := by simpa using hfin
    have hadd : (addFinalizerStep agent).2 = true := by
      unfold addFinalizerStep
      simp [hmem]
    unfold SimpleAgentReconciler.Reconcile
    by_cases hdt : ((addFinalizerStep agent).1.deletionTimestamp != none) = true <;>
      simp [hdt, hadd]

/-- Witness for C2 (amended): the three behaviours at concrete inputs. -/
theorem finalizer_add_continue_amended_witness :
    (AgentReconciler.Reconcile clusterWithSecret testAgent 0).finalizerAdded = true ∧
    (AgentReconciler.Reconcile clusterWithSecret deletedRunningAgent 0).finalizerAdded = false ∧
    (SimpleAgentReconciler.Reconcile emptyCluster testAgent 0).finalizerAdded = true :=
  ⟨(finalizer_add_continue_amended.1 clusterWithSecret testAgent 0 rfl rfl rfl rfl).1,
   finalizer_add_continue_amended.2.1 clusterWithSecret deletedRunningAgent 0
     (by simp [deletedRunningAgent, testAgent]),
   finalizer_add_continue_amended.2.2 emptyCluster testAgent 0 rfl⟩

/-- Counterexample for C3: the simple reconciler sets phase Running on a
fresh Agent although the Deployment it just created reports zero ready
replicas out of one desired, and replicaStatus keeps desired = 0. -/
theorem simple_running_counterexample :
    (SimpleAgentReconciler.Reconcile clusterWithSecret testAgent 0).agent.status.phase
      = AgentPhaseRunning ∧
    (SimpleAgentReconciler.Reconcile clusterWithSecret testAgent 0).agent.status.replicaStatus.desired
      = 0 ∧
    findDeployment (SimpleAgentReconciler.Reconcile clusterWithSecret testAgent 0).cluster
      "test-agent" "default" =
      some { name := "test-agent", ns := "default", specReplicas := 1
             readyReplicas := 0, availableReplicas := 0, statusReplicas := 0 } :=
  ⟨rfl, rfl, rfl⟩

/-- C3 (amended): every status written by the enhanced reconciler's status
engine preserves the invariant that phase Running implies
replicaStatus.ready = replicaStatus.desired and desired positive; the
simple reconciler does not maintain this invariant. -/
theorem running_phase_invariant (c : Cluster) (agent : Agent) (now : Nat) (a3 : Agent)
    (h : updateAgentStatus c agent now = Except.ok a3)
    (hrun : a3.status.phase = AgentPhaseRunning) :
    a3.status.replicaStatus.ready = a3.status.replicaStatus.desired ∧
    0 < a3.status.replicaStatus.desired := by
  unfold updateAgentStatus at h
  cases hfd : findDeployment c agent.name agent.ns with
  | none => rw [hfd] at h; exact absurd h (by simp)
  | some d =>
      rw [hfd] at h
      simp only [Except.ok.injEq] at h
      subst h
      by_cases hcond : (d.readyReplicas == d.specReplicas && decide (d.readyReplicas > 0)) = true
      · simp only [Bool.and_eq_true, beq_iff_eq, decide_eq_true_eq] at hcond
        have hpos : 0 < d.specReplicas := hcond.1 ▸ hcond.2
        constructor
        · simp only [hcond.1]
          split_ifs <;> rfl
        · simp only [hcond.1]
          split_ifs <;> exact hpos
      · exfalso
        simp only [hcond, Bool.false_eq_true, if_false] at hrun
        by_cases hz : (d.statusReplicas == 0) = true
        · simp only [hz, if_true] at hrun
          simp [AgentPhasePending, AgentPhaseRunning] at hrun
        · simp only [hz, Bool.false_eq_true, if_false] at hrun
          simp [AgentPhasePending, AgentPhaseRunning] at hrun

/-- Witness for C3 (amended): with a fully ready one-replica Deployment the
status engine writes Running with ready = desired = 1. -/
theorem running_phase_invariant_witness :
    ∃ a3, updateAgentStatus readyCluster testAgent 0 = Except.ok a3 ∧
      a3.status.phase = AgentPhaseRunning ∧
      (a3.status.replicaStatus.ready = a3.status.replicaStatus.desired ∧
       0 < a3.status.replicaStatus.desired) := by
  refine ⟨_, rfl, rfl, ?_⟩
  exact running_phase_invariant readyCluster testAgent 0 _ rfl rfl
